import Mathlib

set_option maxRecDepth 10000

/-!
Verification of the manifest-ingestion utilities of the ADU agent
(`src/utils/parser_utils/src/parser_utils.c`).

The C code operates on parson JSON documents.  We embed JSON values as the
inductive type `JValue`; a parson `JSON_Object*` (which may be `NULL`) is
modelled as `Option (List (String × JValue))`, keeping the entry order that
parson exposes through `json_object_get_name` / `json_object_get_value_at`.
Machine strings (`const char*`, possibly `NULL`) are `Option String`.
Fallible constructors return `Option`.

Memory behaviour is made observable by an allocation ledger: each
successfully constructed `ADUC_Hash` or `ADUC_FileEntity` counts as one
allocation, and each call to `ADUC_Hash_FreeArray` /
`ADUC_FileEntityArray_Free` on constructed objects counts the corresponding
frees, so "everything built in this call was released" is the statement
`allocated = freed`.
-/

/-- JSON values as handled by the parson library.  Numbers are modelled as
integers: the only number the code under verification reads is
`sizeInBytes`, an integral byte count that the C code converts to `size_t`. -/
inductive JValue where
  | jnull
  | jbool (b : Bool)
  | jnumber (n : Int)
  | jstring (s : String)
  | jarray (elements : List JValue)
  | jobject (entries : List (String × JValue))

/-- A parson `JSON_Object`: its entries in enumeration order. -/
abbrev JEntries := List (String × JValue)

/-! ### A model of parson's `json_parse_string`

`ADUC_JSON_GetUpdateManifestRoot` re-parses the string-valued
`updateManifest` field, so the embedding needs an executable JSON parser.
It is a plain recursive-descent parser over the character list, with a fuel
argument bounding the recursion depth. -/

/-- Skip JSON whitespace. -/
def skipWs : List Char → List Char
  | c :: cs => if c == ' ' || c == '\t' || c == '\n' || c == '\r' then skipWs cs else c :: cs
  | [] => []

/-- Value of a hexadecimal digit. -/
def hexVal (c : Char) : Option Nat :=
  if c.isDigit then some (c.toNat - 48)
  else if 'a' ≤ c then (if c ≤ 'f' then some (c.toNat - 87) else none)
  else if 'A' ≤ c then (if c ≤ 'F' then some (c.toNat - 55) else none)
  else none

/-- Translation of a single-character escape sequence: `n`, `t`, `r`, `b`
and `f` denote control characters; quote, backslash and slash denote
themselves. -/
def escChar (c : Char) : Option Char :=
  match c with
  | 'n' => some (Char.ofNat 10)
  | 't' => some (Char.ofNat 9)
  | 'r' => some (Char.ofNat 13)
  | 'b' => some (Char.ofNat 8)
  | 'f' => some (Char.ofNat 12)
  | c0 => if c0 == '"' || c0 == '\\' || c0 == '/' then some c0 else none

/-- Parse the remainder of a JSON string literal (the opening quote has been
consumed), returning the decoded string and the rest of the input. -/
def parseStringRest : List Char → String → Option (String × List Char)
  | [], _ => none
  | '"' :: rest, acc => some (acc, rest)
  | '\\' :: 'u' :: h1 :: h2 :: h3 :: h4 :: rest, acc =>
    (match hexVal h1, hexVal h2, hexVal h3, hexVal h4 with
     | some a, some b, some c, some d =>
       parseStringRest rest (acc.push (Char.ofNat (((a * 16 + b) * 16 + c) * 16 + d)))
     | _, _, _, _ => none)
  | '\\' :: e :: rest, acc =>
    (match escChar e with
     | some c => parseStringRest rest (acc.push c)
     | none => none)
  | c :: rest, acc => parseStringRest rest (acc.push c)

/-- Consume a (possibly empty) run of decimal digits, accumulating their value. -/
def parseDigits : List Char → Nat → Nat × List Char
  | c :: cs, acc =>
    if c.isDigit then parseDigits cs (acc * 10 + (c.toNat - 48)) else (acc, c :: cs)
  | [], acc => (acc, [])

/-- Consume an optional fraction part (syntax check only; see `parseNumber`). -/
def parseFrac : List Char → Option (List Char)
  | '.' :: cs =>
    (match cs with
     | c :: _ => if c.isDigit then some (parseDigits cs 0).2 else none
     | [] => none)
  | cs => some cs

/-- Consume an optional exponent part (syntax check only; see `parseNumber`). -/
def parseExp : List Char → Option (List Char)
  | c :: cs =>
    if c == 'e' || c == 'E' then
      match (match cs with
             | s :: r => if s == '+' || s == '-' then r else s :: r
             | [] => []) with
      | d :: r2 => if d.isDigit then some (parseDigits (d :: r2) 0).2 else none
      | [] => none
    else some (c :: cs)
  | [] => some []

/-- Parse a JSON number.  The integer part carries the value; fraction and
exponent are accepted syntactically (the verified code only ever reads the
integral `sizeInBytes`, which C truncates to `size_t` anyway). -/
def parseNumber (cs : List Char) : Option (JValue × List Char) :=
  let neg : Bool := cs.head? == some '-'
  let cs1 : List Char := if neg then cs.tail else cs
  match cs1 with
  | c :: _ =>
    if c.isDigit then
      match parseDigits cs1 0 with
      | (n, cs2) =>
        match parseFrac cs2 with
        | none => none
        | some cs3 =>
          match parseExp cs3 with
          | none => none
          | some cs4 => some (JValue.jnumber (if neg then -(n : Int) else (n : Int)), cs4)
    else none
  | [] => none

mutual

/-- Parse one JSON value. -/
def parseValue (fuel : Nat) (cs : List Char) : Option (JValue × List Char) :=
  match fuel with
  | 0 => none
  | fuel1 + 1 =>
    match skipWs cs with
    | '{' :: rest =>
      (match skipWs rest with
       | '}' :: r2 => some (JValue.jobject [], r2)
       | r1 => (parseMembers fuel1 r1).map (fun p => (JValue.jobject p.1, p.2)))
    | '[' :: rest =>
      (match skipWs rest with
       | ']' :: r2 => some (JValue.jarray [], r2)
       | r1 => (parseElements fuel1 r1).map (fun p => (JValue.jarray p.1, p.2)))
    | '"' :: rest => (parseStringRest rest "").map (fun p => (JValue.jstring p.1, p.2))
    | 't' :: 'r' :: 'u' :: 'e' :: rest => some (JValue.jbool true, rest)
    | 'f' :: 'a' :: 'l' :: 's' :: 'e' :: rest => some (JValue.jbool false, rest)
    | 'n' :: 'u' :: 'l' :: 'l' :: rest => some (JValue.jnull, rest)
    | cs1 => parseNumber cs1

/-- Parse the members of a JSON object after its `\x7b` (up to and including
the closing brace). -/
def parseMembers (fuel : Nat) (cs : List Char) : Option (JEntries × List Char) :=
  match fuel with
  | 0 => none
  | fuel1 + 1 =>
    match skipWs cs with
    | '"' :: rest =>
      (match parseStringRest rest "" with
       | none => none
       | some (key, r1) =>
         match skipWs r1 with
         | ':' :: r2 =>
           (match parseValue fuel1 r2 with
            | none => none
            | some (v, r3) =>
              match skipWs r3 with
              | ',' :: r4 => (parseMembers fuel1 r4).map (fun p => ((key, v) :: p.1, p.2))
              | '}' :: r4 => some ([(key, v)], r4)
              | _ => none)
         | _ => none)
    | _ => none

/-- Parse the elements of a JSON array after its `[` (up to and including
the closing bracket). -/
def parseElements (fuel : Nat) (cs : List Char) : Option (List JValue × List Char) :=
  match fuel with
  | 0 => none
  | fuel1 + 1 =>
    match parseValue fuel1 cs with
    | none => none
    | some (v, r1) =>
      match skipWs r1 with
      | ',' :: r2 => (parseElements fuel1 r2).map (fun p => (v :: p.1, p.2))
      | ']' :: r2 => some ([v], r2)
      | _ => none

end

/-- Model of parson's `json_parse_string`: parse a complete JSON document
from a string, `none` when the string is not valid JSON.  The fuel
`s.length + 2` dominates the recursion depth because every nested call
consumes at least one character first. -/
def json_parse_string (s : String) : Option JValue :=
  match parseValue (s.length + 2) s.data with
  | some (v, rest) => if (skipWs rest).isEmpty then some v else none
  | none => none

/-! ### The parson accessors used by `parser_utils.c`

Each takes `Option` where the C pointer may be `NULL`; parson's accessors
all tolerate `NULL` arguments, returning `NULL` / `0`. -/

/-- parson `json_value_get_object`: the entry list when the value is an
object, otherwise `NULL`. -/
def json_value_get_object : Option JValue → Option JEntries
  | some (JValue.jobject es) => some es
  | _ => none

/-- parson `json_object_get_value`: first entry with the given key. -/
def json_object_get_value (o : Option JEntries) (key : String) : Option JValue :=
  o.bind fun es => (es.find? (fun e => e.1 == key)).map (fun e => e.2)

/-- parson `json_object_get_object`. -/
def json_object_get_object (o : Option JEntries) (key : String) : Option JEntries :=
  json_value_get_object (json_object_get_value o key)

/-- parson `json_object_get_count`: `0` for `NULL`. -/
def json_object_get_count : Option JEntries → Nat
  | some es => es.length
  | none => 0

/-- parson `json_value_get_string`: the string when the value is a JSON
string, otherwise `NULL`. -/
def json_value_get_string : Option JValue → Option String
  | some (JValue.jstring s) => some s
  | _ => none

/-- parson `json_object_get_string`. -/
def json_object_get_string (o : Option JEntries) (key : String) : Option String :=
  json_value_get_string (json_object_get_value o key)

/-- parson `json_object_has_value`. -/
def json_object_has_value (o : Option JEntries) (key : String) : Bool :=
  (json_object_get_value o key).isSome

/-- parson `json_value_get_number`: `0` when the value is not a JSON number. -/
def json_value_get_number : Option JValue → Int
  | some (JValue.jnumber n) => n
  | _ => 0

/-- parson `json_object_get_number`. -/
def json_object_get_number (o : Option JEntries) (key : String) : Int :=
  json_value_get_number (json_object_get_value o key)

example : json_parse_string "\x7b\x7d" = some (JValue.jobject []) := rfl

example :
    json_parse_string "\x7b\"a\": 12, \"b\": \"x\"\x7d" =
      some (JValue.jobject [("a", JValue.jnumber 12), ("b", JValue.jstring "x")]) := rfl

example : json_parse_string "\x7b" = none := rfl

/-! ### Field names (`ADUCITF_FIELDNAME_*` constants) -/

def ADUCITF_FIELDNAME_UPDATEMANIFEST : String := "updateManifest"

def ADUCITF_FIELDNAME_UPDATEID : String := "updateId"

def ADUCITF_FIELDNAME_PROVIDER : String := "provider"

def ADUCITF_FIELDNAME_NAME : String := "name"

def ADUCITF_FIELDNAME_VERSION : String := "version"

def ADUCITF_FIELDNAME_FILES : String := "files"

def ADUCITF_FIELDNAME_FILE_URLS : String := "fileUrls"

def ADUCITF_FIELDNAME_FILENAME : String := "fileName"

def ADUCITF_FIELDNAME_ARGUMENTS : String := "arguments"

def ADUCITF_FIELDNAME_SIZEINBYTES : String := "sizeInBytes"

def ADUCITF_FIELDNAME_HASHES : String := "hashes"

/-! ### Data structures (`ADUC_Hash`, `ADUC_FileEntity`, `ADUC_UpdateId`) -/

/-- The C struct `ADUC_Hash`: an algorithm name and an encoded value. -/
structure ADUC_Hash where
  value : String
  type : String

/-- The C struct `ADUC_FileEntity`.  Its `Hash`/`HashCount` pair is one list
here; `DownloadUri` and `Arguments` may be `NULL`. -/
structure ADUC_FileEntity where
  targetFilename : String
  downloadUri : Option String
  fileId : String
  arguments : Option String
  hash : List ADUC_Hash
  sizeInBytes : Nat

/-- The C struct `ADUC_UpdateId`: the provider / name / version triple. -/
structure ADUC_UpdateId where
  provider : String
  name : String
  version : String

/-! ### Helpers from this repository that are not under `src/` -/

/-- Modelled from the spec: `ADUC_JSON_GetStringField` (declared in
`parson_json_utils.h`; its implementation is not under `src/`) — "read the
field holding the update manifest as a string" (§4.1), failing when the
field is absent or not a string. -/
def ADUC_JSON_GetStringField (jsonValue : JValue) (jsonFieldName : String) : Option String :=
  json_object_get_string (json_value_get_object (some jsonValue)) jsonFieldName

/-- Modelled from the spec: `ADUC_JSON_GetStringFieldPtr` (declared in
`parson_json_utils.h`; its implementation is not under `src/`) — the §6
"get-string-by-key" capability: a borrowed pointer to the string field, or
`NULL` when the value is not an object or the field is absent or not a
string. -/
def ADUC_JSON_GetStringFieldPtr (jsonValue : JValue) (jsonFieldName : String) : Option String :=
  json_object_get_string (json_value_get_object (some jsonValue)) jsonFieldName

/-- Modelled from the spec: `ADUC_Hash_Init` (from `hash_utils`, not under
`src/`) — §4.3 `HashEntryParser`: "builds one Hash value (type, value)";
"if the algorithm name or value is missing/empty, it fails with
`InvalidHash`". -/
def ADUC_Hash_Init (hashValue : Option String) (hashType : Option String) : Option ADUC_Hash :=
  match hashValue, hashType with
  | some v, some t => if v = "" ∨ t = "" then none else some ⟨v, t⟩
  | _, _ => none

/-- Modelled from the spec: `ADUC_UpdateId_AllocAndInit` (from the shared
types utility, not under `src/`) — §3/§4.2: "All three fields mandatory,
non-empty"; "Fails with `MissingField` if any of the three strings is
absent or empty". -/
def ADUC_UpdateId_AllocAndInit (provider name version : Option String) : Option ADUC_UpdateId :=
  match provider, name, version with
  | some p, some n, some v => if p = "" ∨ n = "" ∨ v = "" then none else some ⟨p, n, v⟩
  | _, _, _ => none

/-! ### `ADUC_JSON_GetUpdateManifestRoot` (parser_utils.c, lines 22–32) -/

/-- Model of `ADUC_JSON_GetUpdateManifestRoot`: read the `updateManifest` string
field of the action JSON and re-parse it as a JSON document.  `none` is the
C `NULL` return. -/
def ADUC_JSON_GetUpdateManifestRoot (updateActionJson : JValue) : Option JValue :=
  match ADUC_JSON_GetStringField updateActionJson ADUCITF_FIELDNAME_UPDATEMANIFEST with
  | none => none
  | some manifestString => json_parse_string manifestString

/-! ### `ADUC_HashArray_AllocAndInit` (parser_utils.c, lines 44–99) -/

/-- One iteration of the hash loop (lines 71–81): the i-th entry's key is
`json_object_get_name(hashObj, i)` and its value string is
`json_value_get_string(json_object_get_value_at(hashObj, i))`. -/
def hashEntryInit (e : String × JValue) : Option ADUC_Hash :=
  ADUC_Hash_Init (json_value_get_string (some e.2)) (some e.1)

/-- The `for (hash_index …)` loop of `ADUC_HashArray_AllocAndInit`:
returns the hashes constructed so far (all of them when the flag is `true`;
the ones before the failing index when it is `false`). -/
def ADUC_HashArray_initLoop : JEntries → List ADUC_Hash × Bool
  | [] => ([], true)
  | e :: rest =>
    match hashEntryInit e with
    | none => ([], false)
    | some h =>
      match ADUC_HashArray_initLoop rest with
      | (hs, ok) => (h :: hs, ok)

/-- Result of `ADUC_HashArray_AllocAndInit`: the returned pointer, the value
stored through `hashCount`, and the allocation ledger of the call. -/
structure HashArrayResult where
  result : Option (List ADUC_Hash)
  hashCount : Nat
  allocated : Nat
  freed : Nat

/-- Model of `ADUC_HashArray_AllocAndInit`.  A `NULL` / empty object fails ("No
hashes"); on a mid-loop failure the `done:` path calls
`ADUC_Hash_FreeArray` on every hash constructed so far (the slots past the
failing index are still zeroed from `calloc`), returns `NULL` and stores
`0` through `hashCount`. -/
def ADUC_HashArray_AllocAndInit (hashObj : Option JEntries) : HashArrayResult :=
  match hashObj with
  | none => ⟨none, 0, 0, 0⟩
  | some es =>
    if es.length = 0 then ⟨none, 0, 0, 0⟩
    else
      match ADUC_HashArray_initLoop es with
      | (hs, true) => ⟨some hs, es.length, hs.length, 0⟩
      | (hs, false) => ⟨none, 0, hs.length, hs.length⟩

/-! ### `ADUC_FileEntity_Init` (parser_utils.c, lines 150–213) -/

/-- Model of `ADUC_FileEntity_Init`.  The C code rejects `NULL` `fileId`,
`targetFileName` and `hashArray`; a `NULL` `downloadUri` is recorded as
"no URL" (line 167's comment: resuming install/apply) and a `NULL`
`arguments` is simply not copied.  String copies that succeed transfer the
values into the entity; the model treats `mallocAndStrcpy_s` as succeeding
(allocation failure is outside the model). -/
def ADUC_FileEntity_Init (fileId targetFileName downloadUri arguments : Option String)
    (hashArray : Option (List ADUC_Hash)) (sizeInBytes : Nat) : Option ADUC_FileEntity :=
  match fileId, targetFileName, hashArray with
  | some fid, some tfn, some ha =>
    some { targetFilename := tfn, downloadUri := downloadUri, fileId := fid,
           arguments := arguments, hash := ha, sizeInBytes := sizeInBytes }
  | _, _, _ => none

/-! ### `ADUC_Json_GetFiles` (parser_utils.c, lines 331–446) -/

/-- Lines 419–423: `sizeInBytes` is `0` unless the field is present, in
which case `json_object_get_number` is read (and is itself `0` when the
field is not a JSON number); the C code converts the double to `size_t`. -/
def ADUC_Json_GetFiles_sizeInBytes (fv : JValue) : Nat :=
  if json_object_has_value (json_value_get_object (some fv)) ADUCITF_FIELDNAME_SIZEINBYTES then
    (json_object_get_number (json_value_get_object (some fv)) ADUCITF_FIELDNAME_SIZEINBYTES).toNat
  else 0

/-- Result of one iteration of the files loop: the entity when the
iteration succeeded, plus its allocation ledger. -/
structure OneResult where
  entity : Option ADUC_FileEntity
  allocated : Nat
  freed : Nat

/-- One iteration of the `for (index …)` loop of `ADUC_Json_GetFiles`
(lines 395–431): `fileId` is `json_object_get_name(filesObject, index)`,
`fv` is `json_object_get_value_at(filesObject, index)` and `uriValue` is
`json_object_get_value_at(fileUrlsObject, index)`.  When
`ADUC_FileEntity_Init` fails, the hash array just built is freed on the
spot (line 427). -/
def ADUC_Json_GetFiles_one (fileId : String) (fv : JValue) (uriValue : Option JValue) :
    OneResult :=
  match json_object_get_object (json_value_get_object (some fv)) ADUCITF_FIELDNAME_HASHES with
  | none => ⟨none, 0, 0⟩
  | some hs =>
    match ADUC_HashArray_AllocAndInit (some hs) with
    | ⟨none, _, a, f⟩ => ⟨none, a, f⟩
    | ⟨some tempHash, _, a, f⟩ =>
      match ADUC_FileEntity_Init (some fileId)
          (json_object_get_string (json_value_get_object (some fv)) ADUCITF_FIELDNAME_FILENAME)
          (json_value_get_string uriValue)
          (json_object_get_string (json_value_get_object (some fv)) ADUCITF_FIELDNAME_ARGUMENTS)
          (some tempHash) (ADUC_Json_GetFiles_sizeInBytes fv) with
      | none => ⟨none, a, f + tempHash.length⟩
      | some e => ⟨some e, a + 1, f⟩

/-- Result of the files loop: entities constructed so far (all of them when
`ok`, those before the failing index otherwise) and the combined ledger. -/
structure LoopResult where
  entities : List ADUC_FileEntity
  allocated : Nat
  freed : Nat
  ok : Bool

/-- The files loop.  Both objects are walked by the same positional index
(the C reads `filesObject` and `fileUrlsObject` at the same `index`), which
here is the simultaneous peeling: `fus.head?` is
`json_object_get_value_at(fileUrlsObject, index)` — `none` past the end,
exactly as parson returns `NULL` for an out-of-range index. -/
def ADUC_Json_GetFiles_loop : JEntries → JEntries → LoopResult
  | [], _ => ⟨[], 0, 0, true⟩
  | (fileId, fv) :: restFiles, fus =>
    match ADUC_Json_GetFiles_one fileId fv ((fus.head?).map (fun e => e.2)) with
    | ⟨none, a, f⟩ => ⟨[], a, f, false⟩
    | ⟨some e, a, f⟩ =>
      match ADUC_Json_GetFiles_loop restFiles fus.tail with
      | ⟨es, ra, rf, rok⟩ => ⟨e :: es, a + ra, f + rf, rok⟩

/-- Result of `ADUC_Json_GetFiles`: the boolean return, the values stored
through the `fileCount` / `files` out-parameters, and the call's ledger. -/
structure FilesResult where
  succeeded : Bool
  fileCount : Nat
  files : Option (List ADUC_FileEntity)
  allocated : Nat
  freed : Nat

/-- Model of `ADUC_Json_GetFiles`.  The out-parameters start as `0` / `NULL`; after
the prechecks the loop fills the `calloc`ed array, and on any failure the
`done:` path calls `ADUC_FileEntityArray_Free(*fileCount, *files)` —
releasing every constructed entity together with its hash array — and
resets the out-parameters to `NULL` / `0`. -/
def ADUC_Json_GetFiles (updateActionJson : JValue) : FilesResult :=
  match ADUC_JSON_GetUpdateManifestRoot updateActionJson with
  | none => ⟨false, 0, none, 0, 0⟩
  | some updateManifestValue =>
    match json_object_get_object (json_value_get_object (some updateManifestValue))
        ADUCITF_FIELDNAME_FILES with
    | none => ⟨false, 0, none, 0, 0⟩
    | some filesObject =>
      if filesObject.length = 0 then ⟨false, 0, none, 0, 0⟩
      else
        match json_object_get_object (json_value_get_object (some updateActionJson))
            ADUCITF_FIELDNAME_FILE_URLS with
        | none => ⟨false, 0, none, 0, 0⟩
        | some fileUrlsObject =>
          if fileUrlsObject.length = 0 then ⟨false, 0, none, 0, 0⟩
          else if fileUrlsObject.length < filesObject.length then ⟨false, 0, none, 0, 0⟩
          else
            match ADUC_Json_GetFiles_loop filesObject fileUrlsObject with
            | ⟨es, a, f, true⟩ => ⟨true, filesObject.length, some es, a, f⟩
            | ⟨es, a, f, false⟩ =>
              ⟨false, 0, none, a, f + (es.map (fun e => 1 + e.hash.length)).sum⟩

/-! ### `ADUC_Json_GetUpdateId` (parser_utils.c, lines 236–296) -/

/-- Model of `ADUC_Json_GetUpdateId`.  `none` is the failure case, in which the C
code stores `NULL` through the out-parameter. -/
def ADUC_Json_GetUpdateId (updateActionJson : JValue) : Option ADUC_UpdateId :=
  match ADUC_JSON_GetUpdateManifestRoot updateActionJson with
  | none => none
  | some updateManifestValue =>
    match json_value_get_object (some updateManifestValue) with
    | none => none
    | some updateManifestObj =>
      match json_object_get_value (some updateManifestObj) ADUCITF_FIELDNAME_UPDATEID with
      | none => none
      | some updateIdValue =>
        match ADUC_JSON_GetStringFieldPtr updateIdValue ADUCITF_FIELDNAME_PROVIDER,
            ADUC_JSON_GetStringFieldPtr updateIdValue ADUCITF_FIELDNAME_NAME,
            ADUC_JSON_GetStringFieldPtr updateIdValue ADUCITF_FIELDNAME_VERSION with
        | some provider, some name, some version =>
          ADUC_UpdateId_AllocAndInit (some provider) (some name) (some version)
        | _, _, _ => none

/-! ### Well-formedness of a `files` entry

The per-entry conditions under which the loop body succeeds: the entry is
an object carrying a string `fileName` and a `hashes` object with at least
one entry, each of which initializes as a hash (non-empty algorithm name,
non-empty string value). -/

/-- A `files` entry on which the loop body is guaranteed to succeed. -/
def fileEntryWellFormed (fv : JValue) : Bool :=
  match json_value_get_object (some fv) with
  | none => false
  | some fobj =>
    (json_object_get_string (some fobj) ADUCITF_FIELDNAME_FILENAME).isSome &&
      (match json_object_get_object (some fobj) ADUCITF_FIELDNAME_HASHES with
       | none => false
       | some hs => !hs.isEmpty && hs.all (fun e => (hashEntryInit e).isSome))

/-! ### Concrete documents (for witnesses and counterexamples) -/

/-- The spec's §8 end-to-end scenario document. -/
def docHappy : JValue :=
  JValue.jobject
    [(ADUCITF_FIELDNAME_UPDATEMANIFEST,
      JValue.jstring
        "\x7b\"files\":\x7b\"0001\":\x7b\"fileName\":\"agent.deb\",\"hashes\":\x7b\"sha256\":\"AAAA\"\x7d\x7d\x7d\x7d"),
     (ADUCITF_FIELDNAME_FILE_URLS,
      JValue.jobject [("0001", JValue.jstring "https://example/agent.deb")])]

/-- The embedded manifest of `docHappy`, as parsed. -/
def docHappyManifest : JValue :=
  JValue.jobject
    [("files",
      JValue.jobject
        [("0001",
          JValue.jobject
            [("fileName", JValue.jstring "agent.deb"),
             ("hashes", JValue.jobject [("sha256", JValue.jstring "AAAA")])])])]

/-- A document whose single file has a present `fileName` and a non-empty
`hashes` object — but the hash value is the number `7`, not a string. -/
def docBadHashValue : JValue :=
  JValue.jobject
    [(ADUCITF_FIELDNAME_UPDATEMANIFEST,
      JValue.jstring
        "\x7b\"files\":\x7b\"f1\":\x7b\"fileName\":\"a\",\"hashes\":\x7b\"sha256\":7\x7d\x7d\x7d\x7d"),
     (ADUCITF_FIELDNAME_FILE_URLS, JValue.jobject [("f1", JValue.jstring "u1")])]

/-- The single `files` entry of `docBadHashValue`. -/
def docBadHashValueEntry : JValue :=
  JValue.jobject
    [("fileName", JValue.jstring "a"),
     ("hashes", JValue.jobject [("sha256", JValue.jnumber 7)])]

/-- The embedded manifest of `docBadHashValue`, as parsed. -/
def docBadHashValueManifest : JValue :=
  JValue.jobject
    [("files",
      JValue.jobject
        [("f1",
          JValue.jobject
            [("fileName", JValue.jstring "a"),
             ("hashes", JValue.jobject [("sha256", JValue.jnumber 7)])])])]

/-- A document whose first file is fine but whose second file has an empty
`hashes` object: the loop fails at index 1 after building one entity. -/
def docPartialFail : JValue :=
  JValue.jobject
    [(ADUCITF_FIELDNAME_UPDATEMANIFEST,
      JValue.jstring
        "\x7b\"files\":\x7b\"f1\":\x7b\"fileName\":\"a\",\"hashes\":\x7b\"sha256\":\"x\"\x7d\x7d,\"f2\":\x7b\"fileName\":\"b\",\"hashes\":\x7b\x7d\x7d\x7d\x7d"),
     (ADUCITF_FIELDNAME_FILE_URLS,
      JValue.jobject [("f1", JValue.jstring "u1"), ("f2", JValue.jstring "u2")])]

/-- A document declaring two files but only one file URL. -/
def docCountMismatch : JValue :=
  JValue.jobject
    [(ADUCITF_FIELDNAME_UPDATEMANIFEST,
      JValue.jstring
        "\x7b\"files\":\x7b\"f1\":\x7b\"fileName\":\"a\",\"hashes\":\x7b\"sha256\":\"x\"\x7d\x7d,\"f2\":\x7b\"fileName\":\"b\",\"hashes\":\x7b\"sha256\":\"y\"\x7d\x7d\x7d\x7d"),
     (ADUCITF_FIELDNAME_FILE_URLS, JValue.jobject [("f1", JValue.jstring "u1")])]

/-- The embedded manifest of `docCountMismatch`, as parsed. -/
def docCountMismatchManifest : JValue :=
  JValue.jobject
    [("files",
      JValue.jobject
        [("f1",
          JValue.jobject
            [("fileName", JValue.jstring "a"),
             ("hashes", JValue.jobject [("sha256", JValue.jstring "x")])]),
         ("f2",
          JValue.jobject
            [("fileName", JValue.jstring "b"),
             ("hashes", JValue.jobject [("sha256", JValue.jstring "y")])])])]

/-- The spec's §8 identity document: `updateId = \x7bprovider:"Azure",
name:"IOT-Firmware", version:"1.2.0.0"\x7d`. -/
def docUpdateIdOk : JValue :=
  JValue.jobject
    [(ADUCITF_FIELDNAME_UPDATEMANIFEST,
      JValue.jstring
        "\x7b\"updateId\":\x7b\"provider\":\"Azure\",\"name\":\"IOT-Firmware\",\"version\":\"1.2.0.0\"\x7d\x7d")]

/-- The embedded manifest of `docUpdateIdOk`, as parsed. -/
def docUpdateIdOkManifest : JValue :=
  JValue.jobject
    [("updateId",
      JValue.jobject
        [("provider", JValue.jstring "Azure"),
         ("name", JValue.jstring "IOT-Firmware"),
         ("version", JValue.jstring "1.2.0.0")])]

/-- A document with no `updateManifest` field at all. -/
def docNoManifestField : JValue := JValue.jobject []

/-- A document whose `updateManifest` string is not valid JSON. -/
def docMalformedManifest : JValue :=
  JValue.jobject [(ADUCITF_FIELDNAME_UPDATEMANIFEST, JValue.jstring "\x7b")]

/-- A document whose `updateManifest` string is the empty JSON object. -/
def docEmptyObjectManifest : JValue :=
  JValue.jobject [(ADUCITF_FIELDNAME_UPDATEMANIFEST, JValue.jstring "\x7b\x7d")]

/-- The sample document from the comment above `ADUC_Json_GetFiles`, whose
`sizeInBytes` is the *string* `"1024"`. -/
def docStringSize : JValue :=
  JValue.jobject
    [(ADUCITF_FIELDNAME_UPDATEMANIFEST,
      JValue.jstring
        "\x7b\"files\":\x7b\"0001\":\x7b\"fileName\":\"fileName\",\"sizeInBytes\":\"1024\",\"hashes\":\x7b\"sha256\":\"base64_encoded_hash_value\"\x7d\x7d\x7d\x7d"),
     (ADUCITF_FIELDNAME_FILE_URLS, JValue.jobject [("0001", JValue.jstring "uri1")])]

/-- The embedded manifest of `docStringSize`, as parsed. -/
def docStringSizeManifest : JValue :=
  JValue.jobject
    [("files",
      JValue.jobject
        [("0001",
          JValue.jobject
            [("fileName", JValue.jstring "fileName"),
             ("sizeInBytes", JValue.jstring "1024"),
             ("hashes",
              JValue.jobject [("sha256", JValue.jstring "base64_encoded_hash_value")])])])]

example : ADUC_JSON_GetUpdateManifestRoot docHappy = some docHappyManifest := rfl

example :
    ADUC_Json_GetFiles docHappy =
      ⟨true, 1,
       some [⟨"agent.deb", some "https://example/agent.deb", "0001", none,
              [⟨"AAAA", "sha256"⟩], 0⟩], 2, 0⟩ := rfl

example : ADUC_Json_GetFiles docBadHashValue = ⟨false, 0, none, 0, 0⟩ := rfl

example : ADUC_Json_GetFiles docPartialFail = ⟨false, 0, none, 2, 2⟩ := rfl

example : ADUC_Json_GetFiles docCountMismatch = ⟨false, 0, none, 0, 0⟩ := rfl

example : ADUC_Json_GetUpdateId docUpdateIdOk = some ⟨"Azure", "IOT-Firmware", "1.2.0.0"⟩ := rfl

example :
    ADUC_Json_GetFiles docStringSize =
      ⟨true, 1,
       some [⟨"fileName", some "uri1", "0001", none,
              [⟨"base64_encoded_hash_value", "sha256"⟩], 0⟩], 2, 0⟩ := rfl

/-! ## Helper lemmas about the hash collection -/

theorem hash_init_some_spec {v t : Option String} {h : ADUC_Hash}
    (hh : ADUC_Hash_Init v t = some h) : v = some h.value ∧ t = some h.type := by
  cases v with
  | none => simp [ADUC_Hash_Init] at hh
  | some vs =>
    cases t with
    | none => simp [ADUC_Hash_Init] at hh
    | some ts =>
      simp only [ADUC_Hash_Init] at hh
      split at hh
      · simp at hh
      · cases hh
        exact ⟨rfl, rfl⟩

theorem initLoop_ok_iff (es : JEntries) :
    (ADUC_HashArray_initLoop es).2 = true ↔ ∀ e ∈ es, (hashEntryInit e).isSome := by
  induction es with
  | nil => simp [ADUC_HashArray_initLoop]
  | cons e rest ih =>
    cases he : hashEntryInit e with
    | none => simp [ADUC_HashArray_initLoop, he]
    | some h =>
      cases hr : ADUC_HashArray_initLoop rest with
      | mk hs ok =>
        rw [hr] at ih
        simp [ADUC_HashArray_initLoop, he, hr, ih]

theorem initLoop_spec (es : JEntries) (hs : List ADUC_Hash)
    (h : ADUC_HashArray_initLoop es = (hs, true)) :
    hs.length = es.length ∧
      ∀ (i : Nat) (hv : ADUC_Hash) (he : String × JValue),
        hs[i]? = some hv → es[i]? = some he → hashEntryInit he = some hv := by
  induction es generalizing hs with
  | nil =>
    simp [ADUC_HashArray_initLoop] at h
    subst h
    simp
  | cons e rest ih =>
    cases he0 : hashEntryInit e with
    | none => simp [ADUC_HashArray_initLoop, he0] at h
    | some hh =>
      cases hr : ADUC_HashArray_initLoop rest with
      | mk hs1 ok =>
        simp [ADUC_HashArray_initLoop, he0, hr] at h
        obtain ⟨h1, h2⟩ := h
        subst h2
        subst h1
        obtain ⟨hlen, hspec⟩ := ih hs1 hr
        refine ⟨by simp [hlen], fun i hv he h1 h2 => ?_⟩
        cases i with
        | zero =>
          simp at h1 h2
          subst h1; subst h2
          exact he0
        | succ n =>
          simp at h1 h2
          exact hspec n hv he h1 h2

theorem hashArray_result_none_spec (ho : Option JEntries)
    (h : (ADUC_HashArray_AllocAndInit ho).result = none) :
    (ADUC_HashArray_AllocAndInit ho).hashCount = 0 ∧
      (ADUC_HashArray_AllocAndInit ho).allocated = (ADUC_HashArray_AllocAndInit ho).freed := by
  cases ho with
  | none => exact ⟨rfl, rfl⟩
  | some es =>
    by_cases h0 : es.length = 0
    · simp [ADUC_HashArray_AllocAndInit, h0]
    · cases hr : ADUC_HashArray_initLoop es with
      | mk hs ok =>
        cases ok with
        | true => simp [ADUC_HashArray_AllocAndInit, h0, hr] at h
        | false => simp [ADUC_HashArray_AllocAndInit, h0, hr]

theorem hashArray_result_some_spec (es : JEntries) (hs : List ADUC_Hash)
    (h : (ADUC_HashArray_AllocAndInit (some es)).result = some hs) :
    ADUC_HashArray_initLoop es = (hs, true) ∧
      ADUC_HashArray_AllocAndInit (some es) = ⟨some hs, es.length, hs.length, 0⟩ := by
  by_cases h0 : es.length = 0
  · simp [ADUC_HashArray_AllocAndInit, h0] at h
  · cases hr : ADUC_HashArray_initLoop es with
    | mk hs1 ok =>
      cases ok with
      | false => simp [ADUC_HashArray_AllocAndInit, h0, hr] at h
      | true =>
        simp [ADUC_HashArray_AllocAndInit, h0, hr] at h
        subst h
        exact ⟨rfl, by simp [ADUC_HashArray_AllocAndInit, h0, hr]⟩

/-- C4: `ADUC_HashArray_AllocAndInit` fails (returns `NULL`) on a hash
object with zero entries; whenever any individual entry fails to
initialize as a Hash it returns `NULL`; and on every failure it reports a
hash count of `0` and has released every Hash constructed in the call
(`allocated = freed`) — no partial hash set is ever returned. -/
theorem hashArray_failure_spec (hashObj : Option JEntries) :
    (json_object_get_count hashObj = 0 →
      (ADUC_HashArray_AllocAndInit hashObj).result = none) ∧
    (∀ e ∈ hashObj.getD [], hashEntryInit e = none →
      (ADUC_HashArray_AllocAndInit hashObj).result = none) ∧
    ((ADUC_HashArray_AllocAndInit hashObj).result = none →
      (ADUC_HashArray_AllocAndInit hashObj).hashCount = 0 ∧
        (ADUC_HashArray_AllocAndInit hashObj).allocated =
          (ADUC_HashArray_AllocAndInit hashObj).freed) := by
  refine ⟨?_, ?_, fun h => hashArray_result_none_spec hashObj h⟩
  · intro h0
    cases hashObj with
    | none => rfl
    | some es =>
      simp [json_object_get_count] at h0
      simp [ADUC_HashArray_AllocAndInit, h0]
  · intro e he hinit
    cases hashObj with
    | none => rfl
    | some es =>
      simp only [Option.getD] at he
      have hne : es.length ≠ 0 := by
        cases es with
        | nil => simp at he
        | cons a l => simp
      have hloop : (ADUC_HashArray_initLoop es).2 = false := by
        rcases hb : (ADUC_HashArray_initLoop es).2 with _ | _
        · rfl
        · have := (initLoop_ok_iff es).mp hb e he
          rw [hinit] at this
          simp at this
      cases hr : ADUC_HashArray_initLoop es with
      | mk hs ok =>
        rw [hr] at hloop
        simp at hloop
        subst hloop
        simp [ADUC_HashArray_AllocAndInit, hne, hr]

/-- C4 witness: a zero-entry hash object fails, and on
`\x7b"md5": "aa", "sha256": 5\x7d` (whose second entry fails to initialize
because its value is not a string) the call returns `NULL`, reports count
`0`, and has freed exactly what it allocated. -/
theorem hashArray_failure_spec_witness :
    (ADUC_HashArray_AllocAndInit (some ([] : JEntries))).result = none ∧
    (ADUC_HashArray_AllocAndInit
        (some [("md5", JValue.jstring "aa"), ("sha256", JValue.jnumber 5)])).result = none ∧
    (ADUC_HashArray_AllocAndInit
        (some [("md5", JValue.jstring "aa"), ("sha256", JValue.jnumber 5)])).hashCount = 0 ∧
    (ADUC_HashArray_AllocAndInit
        (some [("md5", JValue.jstring "aa"), ("sha256", JValue.jnumber 5)])).allocated =
      (ADUC_HashArray_AllocAndInit
        (some [("md5", JValue.jstring "aa"), ("sha256", JValue.jnumber 5)])).freed := by
  have h1 := (hashArray_failure_spec (some ([] : JEntries))).1 rfl
  have h2 := (hashArray_failure_spec
      (some [("md5", JValue.jstring "aa"), ("sha256", JValue.jnumber 5)])).2.1
      ("sha256", JValue.jnumber 5) (by simp) rfl
  have h3 := (hashArray_failure_spec
      (some [("md5", JValue.jstring "aa"), ("sha256", JValue.jnumber 5)])).2.2 h2
  exact ⟨h1, h2, h3.1, h3.2⟩

/-- C7: on success, `ADUC_HashArray_AllocAndInit` returns the hashes in
the source object's enumeration order: the i-th Hash takes its `type` from
the i-th key and its `value` from the i-th entry's string value. -/
theorem hashArray_success_order (es : JEntries) (hs : List ADUC_Hash)
    (h : (ADUC_HashArray_AllocAndInit (some es)).result = some hs) :
    hs.length = es.length ∧
      ∀ (i : Nat) (hv : ADUC_Hash) (he : String × JValue),
        hs[i]? = some hv → es[i]? = some he →
        he.1 = hv.type ∧ json_value_get_string (some he.2) = some hv.value := by
  obtain ⟨hloop, -⟩ := hashArray_result_some_spec es hs h
  obtain ⟨hlen, hspec⟩ := initLoop_spec es hs hloop
  refine ⟨hlen, fun i hv he h1 h2 => ?_⟩
  have h3 := hash_init_some_spec (hspec i hv he h1 h2)
  exact ⟨Option.some.inj h3.2, h3.1⟩

/-- C7 witness: `\x7b"sha256": "abc123"\x7d` parses to the one-element
collection with `type = "sha256"`, `value = "abc123"`. -/
theorem hashArray_success_order_witness :
    (ADUC_HashArray_AllocAndInit (some [("sha256", JValue.jstring "abc123")])).result =
      some [⟨"abc123", "sha256"⟩] ∧
    ([(⟨"abc123", "sha256"⟩ : ADUC_Hash)]).length =
      ([("sha256", JValue.jstring "abc123")] : JEntries).length :=
  ⟨rfl, (hashArray_success_order [("sha256", JValue.jstring "abc123")] [⟨"abc123", "sha256"⟩]
      rfl).1⟩

/-! ## `ADUC_FileEntity_Init` (claim C6) -/

/-- C6 counterexample: the claim says `ADUC_FileEntity_Init` fails when
`fileId` or `targetFilename` is empty or the hash collection has no
entries — but the code only checks for `NULL`: with empty `fileId`, empty
`targetFilename` and a zero-entry hash collection it succeeds. -/
theorem fileEntity_init_empty_accepted :
    ADUC_FileEntity_Init (some "") (some "") none none (some []) 0 =
      some ⟨"", none, "", none, [], 0⟩ := rfl

/-- C6 (amended): `ADUC_FileEntity_Init` fails exactly when `fileId`,
`targetFileName` or the hash array is absent (`NULL`); empty strings and a
zero-entry hash collection are not rejected.  An absent `downloadUri` is
accepted and stored as no-URL, and an absent `arguments` is valid (both
stored as given). -/
theorem fileEntity_init_null_spec :
    (∀ targetFileName downloadUri arguments hashArray sizeInBytes,
      ADUC_FileEntity_Init none targetFileName downloadUri arguments hashArray sizeInBytes =
        none) ∧
    (∀ fileId downloadUri arguments hashArray sizeInBytes,
      ADUC_FileEntity_Init fileId none downloadUri arguments hashArray sizeInBytes = none) ∧
    (∀ fileId targetFileName downloadUri arguments sizeInBytes,
      ADUC_FileEntity_Init fileId targetFileName downloadUri arguments none sizeInBytes =
        none) ∧
    (∀ fid tfn downloadUri arguments ha sizeInBytes,
      ADUC_FileEntity_Init (some fid) (some tfn) downloadUri arguments (some ha) sizeInBytes =
        some ⟨tfn, downloadUri, fid, arguments, ha, sizeInBytes⟩) := by
  refine ⟨?_, ?_, ?_, ?_⟩
  · intro tfn u a ha s
    cases tfn <;> cases ha <;> rfl
  · intro fid u a ha s
    cases fid <;> cases ha <;> rfl
  · intro fid tfn u a s
    cases fid <;> cases tfn <;> rfl
  · intro fid tfn u a ha s
    rfl

/-! ## `ADUC_JSON_GetUpdateManifestRoot` (claim C9) -/

/-- C9: `ADUC_JSON_GetUpdateManifestRoot` returns no document when the
outer document's `updateManifest` string field is absent, and when the
string is present it returns exactly what `json_parse_string` produces:
no document when the string does not parse as valid JSON, and the parsed
embedded manifest document on success. -/
theorem manifestRoot_spec (updateActionJson : JValue) :
    (ADUC_JSON_GetStringField updateActionJson ADUCITF_FIELDNAME_UPDATEMANIFEST = none →
      ADUC_JSON_GetUpdateManifestRoot updateActionJson = none) ∧
    ∀ s, ADUC_JSON_GetStringField updateActionJson ADUCITF_FIELDNAME_UPDATEMANIFEST = some s →
      (json_parse_string s = none → ADUC_JSON_GetUpdateManifestRoot updateActionJson = none) ∧
      ∀ v, json_parse_string s = some v →
        ADUC_JSON_GetUpdateManifestRoot updateActionJson = some v := by
  constructor
  · intro h
    simp [ADUC_JSON_GetUpdateManifestRoot, h]
  · intro s hs
    constructor
    · intro hp
      simp [ADUC_JSON_GetUpdateManifestRoot, hs, hp]
    · intro v hv
      simp [ADUC_JSON_GetUpdateManifestRoot, hs, hv]

/-- C9 witness: a document with no `updateManifest` field yields no
manifest; an `updateManifest` string that is not valid JSON yields no
manifest; a valid string yields its parse. -/
theorem manifestRoot_spec_witness :
    ADUC_JSON_GetUpdateManifestRoot docNoManifestField = none ∧
    ADUC_JSON_GetUpdateManifestRoot docMalformedManifest = none ∧
    ADUC_JSON_GetUpdateManifestRoot docEmptyObjectManifest = some (JValue.jobject []) :=
  ⟨(manifestRoot_spec docNoManifestField).1 rfl,
   ((manifestRoot_spec docMalformedManifest).2 "\x7b" rfl).1 rfl,
   ((manifestRoot_spec docEmptyObjectManifest).2 "\x7b\x7d" rfl).2 (JValue.jobject []) rfl⟩

/-! ## `ADUC_Json_GetUpdateId` (claim C5) -/

/-- C5: `ADUC_Json_GetUpdateId` fails (returning `none`, the model of
storing `NULL` through the out-parameter) when the manifest's `updateId`
entry is absent, and when any of the `provider` / `name` / `version`
strings is absent or empty; when all three are present and non-empty it
returns an identity holding exactly those three strings — no partial
identity is ever returned. -/
theorem getUpdateId_spec (doc mv : JValue) (mo : JEntries)
    (hmv : ADUC_JSON_GetUpdateManifestRoot doc = some mv)
    (hmo : json_value_get_object (some mv) = some mo) :
    (json_object_get_value (some mo) ADUCITF_FIELDNAME_UPDATEID = none →
      ADUC_Json_GetUpdateId doc = none) ∧
    ∀ uv, json_object_get_value (some mo) ADUCITF_FIELDNAME_UPDATEID = some uv →
      (((ADUC_JSON_GetStringFieldPtr uv ADUCITF_FIELDNAME_PROVIDER).getD "" = "" ∨
        (ADUC_JSON_GetStringFieldPtr uv ADUCITF_FIELDNAME_NAME).getD "" = "" ∨
        (ADUC_JSON_GetStringFieldPtr uv ADUCITF_FIELDNAME_VERSION).getD "" = "") →
        ADUC_Json_GetUpdateId doc = none) ∧
      ∀ p n v, ADUC_JSON_GetStringFieldPtr uv ADUCITF_FIELDNAME_PROVIDER = some p →
        ADUC_JSON_GetStringFieldPtr uv ADUCITF_FIELDNAME_NAME = some n →
        ADUC_JSON_GetStringFieldPtr uv ADUCITF_FIELDNAME_VERSION = some v →
        p ≠ "" → n ≠ "" → v ≠ "" →
        ADUC_Json_GetUpdateId doc = some ⟨p, n, v⟩ := by
  constructor
  · intro h
    simp [ADUC_Json_GetUpdateId, hmv, hmo, h]
  · intro uv huv
    constructor
    · intro hdisj
      cases hp : ADUC_JSON_GetStringFieldPtr uv ADUCITF_FIELDNAME_PROVIDER with
      | none => simp [ADUC_Json_GetUpdateId, hmv, hmo, huv, hp]
      | some ps =>
        cases hn : ADUC_JSON_GetStringFieldPtr uv ADUCITF_FIELDNAME_NAME with
        | none => simp [ADUC_Json_GetUpdateId, hmv, hmo, huv, hp, hn]
        | some ns =>
          cases hv : ADUC_JSON_GetStringFieldPtr uv ADUCITF_FIELDNAME_VERSION with
          | none => simp [ADUC_Json_GetUpdateId, hmv, hmo, huv, hp, hn, hv]
          | some vs =>
            rw [hp, hn, hv] at hdisj
            simp only [Option.getD_some] at hdisj
            simp [ADUC_Json_GetUpdateId, hmv, hmo, huv, hp, hn, hv,
              ADUC_UpdateId_AllocAndInit, if_pos hdisj]
    · intro p n v hp hn hv hpne hnne hvne
      simp [ADUC_Json_GetUpdateId, hmv, hmo, huv, hp, hn, hv, ADUC_UpdateId_AllocAndInit,
        hpne, hnne, hvne]

/-! ## The files loop: helper lemmas -/

theorem fileEntity_init_some_inv {fid tfn uri args : Option String}
    {ha : Option (List ADUC_Hash)} {s : Nat} {e : ADUC_FileEntity}
    (h : ADUC_FileEntity_Init fid tfn uri args ha s = some e) :
    ∃ f t hl, fid = some f ∧ tfn = some t ∧ ha = some hl ∧
      e = ⟨t, uri, f, args, hl, s⟩ := by
  cases fid with
  | none => cases tfn <;> cases ha <;> simp [ADUC_FileEntity_Init] at h
  | some f =>
    cases tfn with
    | none => cases ha <;> simp [ADUC_FileEntity_Init] at h
    | some t =>
      cases ha with
      | none => simp [ADUC_FileEntity_Init] at h
      | some hl =>
        simp only [ADUC_FileEntity_Init] at h
        exact ⟨f, t, hl, rfl, rfl, rfl, (Option.some.inj h).symm⟩

theorem list_head?_eq_get0 {α : Type} (l : List α) : l.head? = l[0]? := by
  cases l <;> simp

theorem list_tail_getElem? {α : Type} (l : List α) (i : Nat) : l.tail[i]? = l[i + 1]? := by
  cases l <;> simp

/-- Case analysis on one loop iteration: either it fails having freed all
it allocated, or it produces the entity built from the entry's fields —
`fileId` from the entry key, `downloadUri` read from the positional URL
value, `sizeInBytes` from the entry — holding one entity plus its hashes
beyond what was freed. -/
theorem getFiles_one_cases (fileId : String) (fv : JValue) (uriValue : Option JValue) :
    ((ADUC_Json_GetFiles_one fileId fv uriValue).entity = none ∧
      (ADUC_Json_GetFiles_one fileId fv uriValue).allocated =
        (ADUC_Json_GetFiles_one fileId fv uriValue).freed) ∨
    (∃ e, (ADUC_Json_GetFiles_one fileId fv uriValue).entity = some e ∧
      e.fileId = fileId ∧ e.downloadUri = json_value_get_string uriValue ∧
      e.sizeInBytes = ADUC_Json_GetFiles_sizeInBytes fv ∧
      (ADUC_Json_GetFiles_one fileId fv uriValue).allocated =
        (ADUC_Json_GetFiles_one fileId fv uriValue).freed + (1 + e.hash.length)) := by
  cases hh : json_object_get_object (json_value_get_object (some fv))
      ADUCITF_FIELDNAME_HASHES with
  | none =>
    simp only [ADUC_Json_GetFiles_one, hh]
    exact Or.inl ⟨by simp, by simp⟩
  | some hs =>
    cases hres : ADUC_HashArray_AllocAndInit (some hs) with
    | mk res hc a f =>
      cases res with
      | none =>
        have h2 := (hashArray_result_none_spec (some hs) (by rw [hres])).2
        rw [hres] at h2
        simp only [ADUC_Json_GetFiles_one, hh, hres]
        exact Or.inl ⟨by simp, h2⟩
      | some tempHash =>
        obtain ⟨-, heq⟩ := hashArray_result_some_spec hs tempHash (by rw [hres])
        rw [heq] at hres
        injection hres with h1 h2 h3 h4
        subst h2
        subst h3
        subst h4
        cases hinit : ADUC_FileEntity_Init (some fileId)
            (json_object_get_string (json_value_get_object (some fv))
              ADUCITF_FIELDNAME_FILENAME)
            (json_value_get_string uriValue)
            (json_object_get_string (json_value_get_object (some fv))
              ADUCITF_FIELDNAME_ARGUMENTS)
            (some tempHash) (ADUC_Json_GetFiles_sizeInBytes fv) with
        | none =>
          simp only [ADUC_Json_GetFiles_one, hh, heq, hinit]
          exact Or.inl ⟨by simp, by simp⟩
        | some e =>
          obtain ⟨ff, tt, hl, hfid, -, hha, he⟩ := fileEntity_init_some_inv hinit
          simp only [ADUC_Json_GetFiles_one, hh, heq, hinit]
          refine Or.inr ⟨e, by simp, ?_, ?_, ?_, ?_⟩
          · rw [he]
            exact (Option.some.inj hfid).symm
          · rw [he]
          · rw [he]
          · have hht : e.hash = tempHash := by
              rw [he]
              exact (Option.some.inj hha).symm
            simp [hht]
            omega

/-- When a `files` entry is well formed, the loop iteration on it
succeeds. -/
theorem getFiles_one_wf_some (fileId : String) (fv : JValue) (uriValue : Option JValue)
    (hwf : fileEntryWellFormed fv = true) :
    ∃ e, (ADUC_Json_GetFiles_one fileId fv uriValue).entity = some e := by
  unfold fileEntryWellFormed at hwf
  cases hobj : json_value_get_object (some fv) with
  | none => rw [hobj] at hwf; simp at hwf
  | some fobj =>
    rw [hobj] at hwf
    simp only [Bool.and_eq_true] at hwf
    obtain ⟨hname, hrest⟩ := hwf
    cases hhash : json_object_get_object (some fobj) ADUCITF_FIELDNAME_HASHES with
    | none => rw [hhash] at hrest; simp at hrest
    | some hs =>
      rw [hhash] at hrest
      simp only [Bool.and_eq_true] at hrest
      obtain ⟨hne, hall⟩ := hrest
      have hok : (ADUC_HashArray_initLoop hs).2 = true := by
        refine (initLoop_ok_iff hs).mpr fun e he => ?_
        have := List.all_eq_true.mp hall e he
        simpa using this
      have hlen : ¬hs.length = 0 := by
        cases hs with
        | nil => simp at hne
        | cons x l => simp
      cases hloop : ADUC_HashArray_initLoop hs with
      | mk hl ok =>
        rw [hloop] at hok
        subst hok
        have hres : ADUC_HashArray_AllocAndInit (some hs) =
            ⟨some hl, hs.length, hl.length, 0⟩ := by
          simp [ADUC_HashArray_AllocAndInit, hlen, hloop]
        obtain ⟨nm, hnm⟩ := Option.isSome_iff_exists.mp hname
        refine ⟨⟨nm, json_value_get_string uriValue, fileId,
          json_object_get_string (some fobj) ADUCITF_FIELDNAME_ARGUMENTS, hl,
          ADUC_Json_GetFiles_sizeInBytes fv⟩, ?_⟩
        simp [ADUC_Json_GetFiles_one, hobj, hhash, hres, hnm, ADUC_FileEntity_Init]

/-- The loop's allocation ledger: what is allocated equals what was freed
plus what lives in the entities constructed so far. -/
theorem getFiles_loop_ledger (fo fus : JEntries) :
    (ADUC_Json_GetFiles_loop fo fus).allocated =
      (ADUC_Json_GetFiles_loop fo fus).freed +
        (((ADUC_Json_GetFiles_loop fo fus).entities).map (fun e => 1 + e.hash.length)).sum := by
  induction fo generalizing fus with
  | nil => simp [ADUC_Json_GetFiles_loop]
  | cons hd rest ih =>
    obtain ⟨fileId, fv⟩ := hd
    cases hone : ADUC_Json_GetFiles_one fileId fv ((fus.head?).map (fun e => e.2)) with
    | mk ent a f =>
      rcases getFiles_one_cases fileId fv ((fus.head?).map (fun e => e.2)) with
        ⟨hnone, hled⟩ | ⟨e, hsome, -, -, -, hled⟩
      · rw [hone] at hnone hled
        have hent : ent = none := hnone
        subst hent
        simp [ADUC_Json_GetFiles_loop, hone]
        exact hled
      · rw [hone] at hsome hled
        have hent : ent = some e := hsome
        subst hent
        cases hrest : ADUC_Json_GetFiles_loop rest fus.tail with
        | mk es ra rf rok =>
          have ihr := ih fus.tail
          rw [hrest] at ihr
          simp only [ADUC_Json_GetFiles_loop, hone, hrest]
          simp only [List.map_cons, List.sum_cons] at ihr ⊢
          simp only at hled
          omega

/-- On a successful loop run the entities are index-aligned with the
`files` entries: the i-th entity is exactly the one produced by the i-th
iteration, which reads the i-th URL value. -/
theorem getFiles_loop_ok_spec (fo fus : JEntries)
    (h : (ADUC_Json_GetFiles_loop fo fus).ok = true) :
    (ADUC_Json_GetFiles_loop fo fus).entities.length = fo.length ∧
      ∀ (i : Nat) (fe : String × JValue) (ent : ADUC_FileEntity),
        fo[i]? = some fe → (ADUC_Json_GetFiles_loop fo fus).entities[i]? = some ent →
        (ADUC_Json_GetFiles_one fe.1 fe.2 ((fus[i]?).map (fun e => e.2))).entity =
          some ent := by
  induction fo generalizing fus with
  | nil => simp [ADUC_Json_GetFiles_loop]
  | cons hd rest ih =>
    obtain ⟨fileId, fv⟩ := hd
    cases hone : ADUC_Json_GetFiles_one fileId fv ((fus.head?).map (fun e => e.2)) with
    | mk ent a f =>
      cases ent with
      | none => simp [ADUC_Json_GetFiles_loop, hone] at h
      | some e =>
        cases hrest : ADUC_Json_GetFiles_loop rest fus.tail with
        | mk es ra rf rok =>
          simp only [ADUC_Json_GetFiles_loop, hone, hrest] at h
          obtain ⟨hlen, hspec⟩ := ih fus.tail (by rw [hrest]; exact h)
          rw [hrest] at hlen hspec
          constructor
          · simp [ADUC_Json_GetFiles_loop, hone, hrest]
            exact hlen
          · intro i fe ent2 h1 h2
            simp only [ADUC_Json_GetFiles_loop, hone, hrest] at h2
            cases i with
            | zero =>
              simp only [List.getElem?_cons_zero] at h1 h2
              have hfe : fe = (fileId, fv) := (Option.some.inj h1).symm
              have hent2 : ent2 = e := (Option.some.inj h2).symm
              subst hfe
              subst hent2
              rw [← list_head?_eq_get0]
              rw [hone]
            | succ n =>
              simp only [List.getElem?_cons_succ] at h1 h2
              have := hspec n fe ent2 h1 h2
              rw [list_tail_getElem?] at this
              exact this

/-- When every `files` entry is well formed, the loop succeeds. -/
theorem getFiles_loop_wf_ok (fo fus : JEntries)
    (hwf : ∀ e ∈ fo, fileEntryWellFormed e.2 = true) :
    (ADUC_Json_GetFiles_loop fo fus).ok = true := by
  induction fo generalizing fus with
  | nil => rfl
  | cons hd rest ih =>
    obtain ⟨fileId, fv⟩ := hd
    obtain ⟨e, he⟩ := getFiles_one_wf_some fileId fv ((fus.head?).map (fun x => x.2))
      (hwf (fileId, fv) (List.mem_cons_self _ _))
    cases hone : ADUC_Json_GetFiles_one fileId fv ((fus.head?).map (fun x => x.2)) with
    | mk ent a f =>
      rw [hone] at he
      have hent : ent = some e := he
      subst hent
      cases hrest : ADUC_Json_GetFiles_loop rest fus.tail with
      | mk es ra rf rok =>
        have hr := ih fus.tail fun x hx => hwf x (List.mem_cons_of_mem _ hx)
        rw [hrest] at hr
        simp [ADUC_Json_GetFiles_loop, hone, hrest]
        exact hr

/-- C5 witness: the spec's §8 identity document parses to exactly
`(Azure, IOT-Firmware, 1.2.0.0)`. -/
theorem getUpdateId_spec_witness :
    ADUC_Json_GetUpdateId docUpdateIdOk = some ⟨"Azure", "IOT-Firmware", "1.2.0.0"⟩ :=
  ((getUpdateId_spec docUpdateIdOk docUpdateIdOkManifest
      [("updateId",
        JValue.jobject
          [("provider", JValue.jstring "Azure"),
           ("name", JValue.jstring "IOT-Firmware"),
           ("version", JValue.jstring "1.2.0.0")])]
      rfl rfl).2
    (JValue.jobject
      [("provider", JValue.jstring "Azure"),
       ("name", JValue.jstring "IOT-Firmware"),
       ("version", JValue.jstring "1.2.0.0")]) rfl).2
    "Azure" "IOT-Firmware" "1.2.0.0" rfl rfl rfl (by decide) (by decide) (by decide)

/-! ## `ADUC_Json_GetFiles`: the claims -/

/-- When the prechecks pass, `ADUC_Json_GetFiles` is the loop's outcome. -/
theorem getFiles_eq_loop (doc mv : JValue) (fo fu : JEntries)
    (hmv : ADUC_JSON_GetUpdateManifestRoot doc = some mv)
    (hfo : json_object_get_object (json_value_get_object (some mv)) ADUCITF_FIELDNAME_FILES =
      some fo)
    (hfu : json_object_get_object (json_value_get_object (some doc))
      ADUCITF_FIELDNAME_FILE_URLS = some fu)
    (hN : 0 < fo.length) (hM : fo.length ≤ fu.length) :
    ADUC_Json_GetFiles doc =
      (match ADUC_Json_GetFiles_loop fo fu with
       | ⟨es, a, f, true⟩ => ⟨true, fo.length, some es, a, f⟩
       | ⟨es, a, f, false⟩ =>
         ⟨false, 0, none, a, f + (es.map (fun e => 1 + e.hash.length)).sum⟩) := by
  have h0 : ¬fo.length = 0 := by omega
  have h1 : ¬fu.length = 0 := by omega
  have h2 : ¬fu.length < fo.length := by omega
  simp [ADUC_Json_GetFiles, hmv, hfo, hfu, h0, h1, h2]

/-- Every run of `ADUC_Json_GetFiles` is either an early failure with a
zero ledger, or the outcome of the files loop on some `fo` / `fu`. -/
theorem getFiles_total_cases (doc : JValue) :
    ADUC_Json_GetFiles doc = ⟨false, 0, none, 0, 0⟩ ∨
    ∃ fo fu es a f,
      (ADUC_Json_GetFiles_loop fo fu = ⟨es, a, f, true⟩ ∧
        ADUC_Json_GetFiles doc = ⟨true, fo.length, some es, a, f⟩) ∨
      (ADUC_Json_GetFiles_loop fo fu = ⟨es, a, f, false⟩ ∧
        ADUC_Json_GetFiles doc =
          ⟨false, 0, none, a, f + (es.map (fun e => 1 + e.hash.length)).sum⟩) := by
  unfold ADUC_Json_GetFiles
  split
  · exact Or.inl rfl
  · split
    · exact Or.inl rfl
    · split
      · exact Or.inl rfl
      · split
        · exact Or.inl rfl
        · split
          · exact Or.inl rfl
          · split
            · exact Or.inl rfl
            · split
              · rename_i es a f heq
                exact Or.inr ⟨_, _, es, a, f, Or.inl ⟨heq, rfl⟩⟩
              · rename_i es a f heq
                exact Or.inr ⟨_, _, es, a, f, Or.inr ⟨heq, rfl⟩⟩

/-- C2: whenever `ADUC_Json_GetFiles` fails — in particular when any
per-entry step fails at any index — the out-parameters are left as
`*files = NULL`, `*fileCount = 0`, and everything built during the call
(every FileEntity constructed so far, the entry under construction's
hashes, and the backing array contents) has been released:
`allocated = freed`.  The caller never observes a collection shorter than
the declared count. -/
theorem getFiles_failure_releases_all (updateActionJson : JValue)
    (h : (ADUC_Json_GetFiles updateActionJson).succeeded = false) :
    (ADUC_Json_GetFiles updateActionJson).files = none ∧
      (ADUC_Json_GetFiles updateActionJson).fileCount = 0 ∧
      (ADUC_Json_GetFiles updateActionJson).allocated =
        (ADUC_Json_GetFiles updateActionJson).freed := by
  rcases getFiles_total_cases updateActionJson with
    heq | ⟨fo, fu, es, a, f, ⟨hl, heq⟩ | ⟨hl, heq⟩⟩
  · rw [heq]
    exact ⟨rfl, rfl, rfl⟩
  · rw [heq] at h
    simp at h
  · rw [heq]
    have hled := getFiles_loop_ledger fo fu
    rw [hl] at hled
    exact ⟨rfl, rfl, hled⟩

/-- C2 witness: on `docPartialFail` the second file's empty hash object
fails the parse after one full entity (and its hash) was built; the
outputs are reset and the ledger balances. -/
theorem getFiles_failure_releases_all_witness :
    (ADUC_Json_GetFiles docPartialFail).files = none ∧
      (ADUC_Json_GetFiles docPartialFail).fileCount = 0 ∧
      (ADUC_Json_GetFiles docPartialFail).allocated =
        (ADUC_Json_GetFiles docPartialFail).freed :=
  getFiles_failure_releases_all docPartialFail rfl

/-- C3: when the manifest's `files` object is absent or empty, or the
outer document's `fileUrls` object is absent or empty, or there are fewer
URLs than files, `ADUC_Json_GetFiles` fails with `*files = NULL` and
`*fileCount = 0` before any FileEntity is allocated (zero allocations). -/
theorem getFiles_count_precheck (doc mv : JValue)
    (hmv : ADUC_JSON_GetUpdateManifestRoot doc = some mv)
    (h : json_object_get_count
          (json_object_get_object (json_value_get_object (some mv))
            ADUCITF_FIELDNAME_FILES) = 0 ∨
        json_object_get_count
          (json_object_get_object (json_value_get_object (some doc))
            ADUCITF_FIELDNAME_FILE_URLS) = 0 ∨
        json_object_get_count
            (json_object_get_object (json_value_get_object (some doc))
              ADUCITF_FIELDNAME_FILE_URLS) <
          json_object_get_count
            (json_object_get_object (json_value_get_object (some mv))
              ADUCITF_FIELDNAME_FILES)) :
    ADUC_Json_GetFiles doc = ⟨false, 0, none, 0, 0⟩ := by
  cases hfo : json_object_get_object (json_value_get_object (some mv))
      ADUCITF_FIELDNAME_FILES with
  | none => simp [ADUC_Json_GetFiles, hmv, hfo]
  | some fo =>
    rw [hfo] at h
    by_cases h0 : fo.length = 0
    · simp [ADUC_Json_GetFiles, hmv, hfo, h0]
    · cases hfu : json_object_get_object (json_value_get_object (some doc))
          ADUCITF_FIELDNAME_FILE_URLS with
      | none => simp [ADUC_Json_GetFiles, hmv, hfo, hfu, h0]
      | some fu =>
        rw [hfu] at h
        simp only [json_object_get_count] at h
        by_cases h1 : fu.length = 0
        · simp [ADUC_Json_GetFiles, hmv, hfo, hfu, h0, h1]
        · have h2 : fu.length < fo.length := by
            rcases h with h | h | h
            · exact absurd h h0
            · exact absurd h h1
            · exact h
          simp [ADUC_Json_GetFiles, hmv, hfo, hfu, h0, h1, h2]

/-- C3 witness: `docCountMismatch` declares two files but carries only one
file URL. -/
theorem getFiles_count_precheck_witness :
    ADUC_Json_GetFiles docCountMismatch = ⟨false, 0, none, 0, 0⟩ :=
  getFiles_count_precheck docCountMismatch docCountMismatchManifest rfl
    (Or.inr (Or.inr (by decide)))

/-- C1 counterexample: `docBadHashValue`'s embedded manifest parses, its
`files` object has one entry whose object has a present `fileName` and a
non-empty `hashes` object, and `fileUrls` has one entry (M = N = 1) — yet
`ADUC_Json_GetFiles` fails, because the hash entry's value `7` is not a
string.  The claim's premises do not suffice for success. -/
theorem getFiles_nonstring_hash_fails :
    ADUC_JSON_GetUpdateManifestRoot docBadHashValue = some docBadHashValueManifest ∧
    json_object_get_object (json_value_get_object (some docBadHashValueManifest))
      ADUCITF_FIELDNAME_FILES = some [("f1", docBadHashValueEntry)] ∧
    json_object_has_value (json_value_get_object (some docBadHashValueEntry))
      ADUCITF_FIELDNAME_FILENAME = true ∧
    json_object_get_count (json_object_get_object
      (json_value_get_object (some docBadHashValueEntry)) ADUCITF_FIELDNAME_HASHES) = 1 ∧
    json_object_get_count (json_object_get_object (json_value_get_object (some docBadHashValue))
      ADUCITF_FIELDNAME_FILE_URLS) = 1 ∧
    (ADUC_Json_GetFiles docBadHashValue).succeeded = false :=
  ⟨rfl, rfl, rfl, rfl, rfl, rfl⟩

/-- C1 (amended): for every outer action document whose embedded manifest
parses, whose `files` object has N ≥ 1 entries — each an object with a
present string `fileName` and a `hashes` object with at least one entry,
every entry initializing as a hash (non-empty key, non-empty string
value) — and whose `fileUrls` object has M ≥ N entries,
`ADUC_Json_GetFiles` succeeds and produces a collection of length exactly
N in `files` enumeration order: the entity at index i has `fileId` equal
to the i-th key of `files` and `downloadUri` equal to the i-th value of
`fileUrls`, resolved by positional index, not by matching `fileId` as a
key. -/
theorem getFiles_wellformed_success (doc mv : JValue) (fo fu : JEntries)
    (hmv : ADUC_JSON_GetUpdateManifestRoot doc = some mv)
    (hfo : json_object_get_object (json_value_get_object (some mv)) ADUCITF_FIELDNAME_FILES =
      some fo)
    (hwf : ∀ e ∈ fo, fileEntryWellFormed e.2 = true)
    (hfu : json_object_get_object (json_value_get_object (some doc))
      ADUCITF_FIELDNAME_FILE_URLS = some fu)
    (hN : 0 < fo.length) (hM : fo.length ≤ fu.length) :
    (ADUC_Json_GetFiles doc).succeeded = true ∧
    ∃ l, (ADUC_Json_GetFiles doc).files = some l ∧ l.length = fo.length ∧
      ∀ (i : Nat) (fe ue : String × JValue) (ent : ADUC_FileEntity),
        fo[i]? = some fe → fu[i]? = some ue → l[i]? = some ent →
        ent.fileId = fe.1 ∧ ent.downloadUri = json_value_get_string (some ue.2) := by
  have heq := getFiles_eq_loop doc mv fo fu hmv hfo hfu hN hM
  have hok := getFiles_loop_wf_ok fo fu hwf
  cases hl : ADUC_Json_GetFiles_loop fo fu with
  | mk es a f ok =>
    rw [hl] at heq hok
    have hokt : ok = true := hok
    subst hokt
    have heq2 : ADUC_Json_GetFiles doc = ⟨true, fo.length, some es, a, f⟩ := by rw [heq]
    obtain ⟨hlen, hspec⟩ := getFiles_loop_ok_spec fo fu (by rw [hl])
    rw [hl] at hlen hspec
    refine ⟨by rw [heq2], es, by rw [heq2], hlen, ?_⟩
    intro i fe ue ent h1 h2 h3
    have hone0 := hspec i fe ent h1 h3
    rw [h2] at hone0
    have hone : (ADUC_Json_GetFiles_one fe.1 fe.2 (some ue.2)).entity = some ent := hone0
    rcases getFiles_one_cases fe.1 fe.2 (some ue.2) with ⟨hn, -⟩ | ⟨e, hsome, hfid, huri, -, -⟩
    · rw [hn] at hone
      cases hone
    · rw [hsome] at hone
      have he : e = ent := Option.some.inj hone
      subst he
      exact ⟨hfid, huri⟩

/-- C1 witness (for the amended claim): the spec's §8 end-to-end document
succeeds and yields the expected single entity. -/
theorem getFiles_wellformed_success_witness :
    (ADUC_Json_GetFiles docHappy).succeeded = true ∧
    (ADUC_Json_GetFiles docHappy).files =
      some [⟨"agent.deb", some "https://example/agent.deb", "0001", none,
             [⟨"AAAA", "sha256"⟩], 0⟩] :=
  ⟨(getFiles_wellformed_success docHappy docHappyManifest
      [("0001",
        JValue.jobject
          [("fileName", JValue.jstring "agent.deb"),
           ("hashes", JValue.jobject [("sha256", JValue.jstring "AAAA")])])]
      [("0001", JValue.jstring "https://example/agent.deb")]
      rfl rfl (by decide) rfl (by decide) (by decide)).1, rfl⟩

theorem list_lt_of_getElem?_eq_some {α : Type} {l : List α} {i : Nat} {x : α}
    (h : l[i]? = some x) : i < l.length := by
  by_contra hge
  rw [List.getElem?_eq_none_iff.mpr (by omega)] at h
  cases h

theorem list_getElem?_isSome_of_lt {α : Type} (l : List α) (i : Nat) (h : i < l.length) :
    ∃ x, l[i]? = some x := by
  cases hx : l[i]? with
  | none =>
    rw [List.getElem?_eq_none_iff] at hx
    omega
  | some x => exact ⟨x, rfl⟩

theorem value_get_number_of_not_number (sv : JValue)
    (hnn : ∀ n : Int, sv ≠ JValue.jnumber n) :
    json_value_get_number (some sv) = 0 := by
  cases sv with
  | jnumber n => exact absurd rfl (hnn n)
  | jnull => rfl
  | jbool b => rfl
  | jstring s => rfl
  | jarray es => rfl
  | jobject es => rfl

/-- C8: on a successful parse, a file object that lacks a `sizeInBytes`
field yields a FileEntity with `sizeInBytes = 0`. -/
theorem getFiles_absent_size_defaults (doc mv : JValue) (fo fu : JEntries)
    (l : List ADUC_FileEntity) (i : Nat) (fe : String × JValue) (fobj : JEntries)
    (ent : ADUC_FileEntity)
    (hmv : ADUC_JSON_GetUpdateManifestRoot doc = some mv)
    (hfo : json_object_get_object (json_value_get_object (some mv)) ADUCITF_FIELDNAME_FILES =
      some fo)
    (hfu : json_object_get_object (json_value_get_object (some doc))
      ADUCITF_FIELDNAME_FILE_URLS = some fu)
    (hN : 0 < fo.length) (hM : fo.length ≤ fu.length)
    (hl : (ADUC_Json_GetFiles doc).files = some l)
    (hi : fo[i]? = some fe)
    (hobj : json_value_get_object (some fe.2) = some fobj)
    (hsz : json_object_has_value (some fobj) ADUCITF_FIELDNAME_SIZEINBYTES = false)
    (hent : l[i]? = some ent) :
    ent.sizeInBytes = 0 := by
  have heq := getFiles_eq_loop doc mv fo fu hmv hfo hfu hN hM
  cases hloop : ADUC_Json_GetFiles_loop fo fu with
  | mk es a f ok =>
    rw [hloop] at heq
    cases ok with
    | false =>
      have hnone : (ADUC_Json_GetFiles doc).files = none := by rw [heq]
      rw [hl] at hnone
      cases hnone
    | true =>
      have heq2 : ADUC_Json_GetFiles doc = ⟨true, fo.length, some es, a, f⟩ := by rw [heq]
      rw [heq2] at hl
      have hes : es = l := Option.some.inj hl
      subst hes
      obtain ⟨-, hspec⟩ := getFiles_loop_ok_spec fo fu (by rw [hloop])
      rw [hloop] at hspec
      have hone := hspec i fe ent hi hent
      rcases getFiles_one_cases fe.1 fe.2 (Option.map (fun e => e.2) fu[i]?) with
        ⟨hn, -⟩ | ⟨e, hsome, -, -, hsize, -⟩
      · rw [hn] at hone
        cases hone
      · rw [hsome] at hone
        have he : e = ent := Option.some.inj hone
        subst he
        rw [hsize]
        simp [ADUC_Json_GetFiles_sizeInBytes, hobj, hsz]

/-- C8 witness: the §8 document's file has no `sizeInBytes`; the produced
entity records `0`. -/
theorem getFiles_absent_size_defaults_witness :
    (⟨"agent.deb", some "https://example/agent.deb", "0001", none,
      [⟨"AAAA", "sha256"⟩], 0⟩ : ADUC_FileEntity).sizeInBytes = 0 :=
  getFiles_absent_size_defaults docHappy docHappyManifest
    [("0001",
      JValue.jobject
        [("fileName", JValue.jstring "agent.deb"),
         ("hashes", JValue.jobject [("sha256", JValue.jstring "AAAA")])])]
    [("0001", JValue.jstring "https://example/agent.deb")]
    [⟨"agent.deb", some "https://example/agent.deb", "0001", none, [⟨"AAAA", "sha256"⟩], 0⟩]
    0
    ("0001",
      JValue.jobject
        [("fileName", JValue.jstring "agent.deb"),
         ("hashes", JValue.jobject [("sha256", JValue.jstring "AAAA")])])
    [("fileName", JValue.jstring "agent.deb"),
     ("hashes", JValue.jobject [("sha256", JValue.jstring "AAAA")])]
    ⟨"agent.deb", some "https://example/agent.deb", "0001", none, [⟨"AAAA", "sha256"⟩], 0⟩
    rfl rfl rfl (by decide) (by decide) rfl rfl rfl rfl rfl

/-- C10: when a file object's `sizeInBytes` is present but not a JSON
number (e.g. the string `"1024"` of the code's own sample), the parse
does not fail for that entry and the entity's `sizeInBytes` is `0`,
indistinguishable from the field being absent. -/
theorem getFiles_nonnumeric_size_zero (doc mv : JValue) (fo fu : JEntries) (i : Nat)
    (fe : String × JValue) (fobj : JEntries) (sv : JValue)
    (hmv : ADUC_JSON_GetUpdateManifestRoot doc = some mv)
    (hfo : json_object_get_object (json_value_get_object (some mv)) ADUCITF_FIELDNAME_FILES =
      some fo)
    (hwf : ∀ e ∈ fo, fileEntryWellFormed e.2 = true)
    (hfu : json_object_get_object (json_value_get_object (some doc))
      ADUCITF_FIELDNAME_FILE_URLS = some fu)
    (hN : 0 < fo.length) (hM : fo.length ≤ fu.length)
    (hi : fo[i]? = some fe)
    (hobj : json_value_get_object (some fe.2) = some fobj)
    (hsv : json_object_get_value (some fobj) ADUCITF_FIELDNAME_SIZEINBYTES = some sv)
    (hnn : ∀ n : Int, sv ≠ JValue.jnumber n) :
    (ADUC_Json_GetFiles doc).succeeded = true ∧
    ∃ l ent, (ADUC_Json_GetFiles doc).files = some l ∧ l[i]? = some ent ∧
      ent.sizeInBytes = 0 := by
  have heq := getFiles_eq_loop doc mv fo fu hmv hfo hfu hN hM
  have hok := getFiles_loop_wf_ok fo fu hwf
  cases hloop : ADUC_Json_GetFiles_loop fo fu with
  | mk es a f ok =>
    rw [hloop] at heq hok
    have hokt : ok = true := hok
    subst hokt
    have heq2 : ADUC_Json_GetFiles doc = ⟨true, fo.length, some es, a, f⟩ := by rw [heq]
    obtain ⟨hlen, hspec⟩ := getFiles_loop_ok_spec fo fu (by rw [hloop])
    rw [hloop] at hlen hspec
    have hilt : i < fo.length := list_lt_of_getElem?_eq_some hi
    have hlen2 : es.length = fo.length := hlen
    obtain ⟨ent, hent⟩ := list_getElem?_isSome_of_lt es i (by omega)
    have hone := hspec i fe ent hi hent
    refine ⟨by rw [heq2], es, ent, by rw [heq2], hent, ?_⟩
    rcases getFiles_one_cases fe.1 fe.2 (Option.map (fun e => e.2) fu[i]?) with
      ⟨hn, -⟩ | ⟨e, hsome, -, -, hsize, -⟩
    · rw [hn] at hone
      cases hone
    · rw [hsome] at hone
      have he : e = ent := Option.some.inj hone
      subst he
      rw [hsize]
      simp [ADUC_Json_GetFiles_sizeInBytes, json_object_has_value, json_object_get_number,
        hobj, hsv, value_get_number_of_not_number sv hnn]

/-- C10 witness: the sample document from the code's own comment, whose
`sizeInBytes` is the string `"1024"`: the parse succeeds and records
`sizeInBytes = 0`. -/
theorem getFiles_nonnumeric_size_zero_witness :
    (ADUC_Json_GetFiles docStringSize).succeeded = true ∧
    ∃ l ent, (ADUC_Json_GetFiles docStringSize).files = some l ∧ l[0]? = some ent ∧
      ent.sizeInBytes = 0 :=
  getFiles_nonnumeric_size_zero docStringSize docStringSizeManifest
    [("0001",
      JValue.jobject
        [("fileName", JValue.jstring "fileName"),
         ("sizeInBytes", JValue.jstring "1024"),
         ("hashes", JValue.jobject [("sha256", JValue.jstring "base64_encoded_hash_value")])])]
    [("0001", JValue.jstring "uri1")] 0
    ("0001",
      JValue.jobject
        [("fileName", JValue.jstring "fileName"),
         ("sizeInBytes", JValue.jstring "1024"),
         ("hashes", JValue.jobject [("sha256", JValue.jstring "base64_encoded_hash_value")])])
    [("fileName", JValue.jstring "fileName"),
     ("sizeInBytes", JValue.jstring "1024"),
     ("hashes", JValue.jobject [("sha256", JValue.jstring "base64_encoded_hash_value")])]
    (JValue.jstring "1024")
    rfl rfl (by decide) rfl (by decide) (by decide) rfl rfl rfl (by intro n; simp)
